import Mathlib

/-!
Verification of the transaction-parser pipeline (`parse_transactions.py`).

The development shallowly embeds the program's pure logic:
* Python strings are Lean `String`s (the ASCII fragment of `str.upper`,
  `str.lower`, `str.strip` suffices for this program's inputs);
* Python floats are exact rationals `ℚ`; `round(x, 2)` is modelled by
  banker's rounding on `ℚ` (`round2`), abstracting binary representation
  error;
* JSON values are the inductive `JValue`; a JSON object / Python dict is an
  association list `Dict` whose operations mirror Python dict semantics
  (first occurrence is the binding);
* the two external services (the LLM extraction service and the bulk
  exchange-rate service) are oracles: functions from the attempt number to
  the outcome of that attempt;
* a raised Python exception is an `Except.error` carrying `str(e)`.

Recursion-by-self-call with a `retry_count` bound is embedded with an
explicit fuel argument set by the wrapper to `max_retries + 1 - retry_count`,
the exact number of attempts the source can make, so every function is
structurally recursive and computable.
-/

namespace TxnParser

/-! ## Python string primitives -/

/-- Whitespace for `str.strip` / `\s` (ASCII fragment). -/
def pyIsSpace (c : Char) : Bool :=
  c = ' ' || c = '\t' || c = '\n' || c = '\r' || c = '\x0b' || c = '\x0c'

/-- `str.strip()` on a character list: drop whitespace at both ends. -/
def pyStripL (l : List Char) : List Char :=
  ((l.dropWhile pyIsSpace).reverse.dropWhile pyIsSpace).reverse

/-- Python `str.strip()`. -/
def pyStrip (s : String) : String := ⟨pyStripL s.data⟩

/-- Python `str.upper()` on one character (ASCII fragment). -/
def pyUpperChar (c : Char) : Char :=
  if 'a' ≤ c ∧ c ≤ 'z' then Char.ofNat (c.toNat - 32) else c

/-- Python `str.upper()` (ASCII fragment). -/
def pyUpper (s : String) : String := ⟨s.data.map pyUpperChar⟩

/-- Python `str.lower()` on one character (ASCII fragment). -/
def pyLowerChar (c : Char) : Char :=
  if 'A' ≤ c ∧ c ≤ 'Z' then Char.ofNat (c.toNat + 32) else c

/-- Python `str.lower()` (ASCII fragment). -/
def pyLower (s : String) : String := ⟨s.data.map pyLowerChar⟩

/-- Does `l` start with `p`? -/
def listLeads : List Char → List Char → Bool
  | _, [] => true
  | [], _ :: _ => false
  | a :: s, b :: t => a = b && listLeads s t

/-- Does `l` contain `n` as a contiguous run? (Python `n in l`.) -/
def listHasSub : List Char → List Char → Bool
  | [], n => n.isEmpty
  | a :: t, n => listLeads (a :: t) n || listHasSub t n

/-- Python `needle in hay` for strings. -/
def strHasSub (hay needle : String) : Bool := listHasSub hay.data needle.data

/-- The rate-limit marker check of `parse_transaction_with_llm`'s handler:
`"429" in str(e) or "rate_limit" in str(e).lower()`. -/
def isRateLimitMsg (msg : String) : Bool :=
  strHasSub msg "429" || strHasSub (pyLower msg) "rate_limit"

/-! ## Rounding: Python `round(x, 2)` over exact rationals -/

/-- Round to the nearest integer, ties to even (Python's `round`). -/
def roundHalfEven (x : ℚ) : ℤ :=
  let f : ℤ := ⌊x⌋
  let r : ℚ := x - f
  if r < 1/2 then f
  else if 1/2 < r then f + 1
  else if f % 2 = 0 then f else f + 1

/-- Python `round(x, 2)` over `ℚ`. -/
def round2 (x : ℚ) : ℚ := (roundHalfEven (x * 100) : ℚ) / 100

/-! ## JSON values and Python dicts -/

/-- A JSON value / Python value produced by `json.loads`.  Nested containers
are never inspected by the program, so `arr` and `obj` are bare markers
(modelled as non-empty, hence truthy, containers). -/
inductive JValue where
  | null
  | jbool (b : Bool)
  | num (q : ℚ)
  | str (s : String)
  | arr
  | obj
  deriving DecidableEq, Repr

/-- A Python dict / JSON object with `String` keys. -/
abbrev Dict (α : Type) : Type := List (String × α)

/-- Python `d[k]` / `k in d`: the first binding of `k`. -/
def alGet {α : Type} : Dict α → String → Option α
  | [], _ => none
  | (k', v) :: t, k => if k' = k then some v else alGet t k

/-- Python `d[k] = v`: replace the first binding of `k`, else append. -/
def alSet {α : Type} : Dict α → String → α → Dict α
  | [], k, v => [(k, v)]
  | (k', v') :: t, k, v =>
      if k' = k then (k, v) :: t else (k', v') :: alSet t k v

/-- Python truthiness of a JSON value (`arr`/`obj` modelled as non-empty). -/
def pyFalsyJ : JValue → Bool
  | .null => true
  | .jbool b => !b
  | .num q => q = 0
  | .str s => s = ""
  | .arr => false
  | .obj => false

/-! ## Rate cache and `get_exchange_rate` -/

/-- The `rates` mapping of one successful bulk response: currency code to
rate relative to USD. -/
abbrev Rates : Type := Dict ℚ

/-- The global `exchange_rates` cache: currency code to its USD factor. -/
abbrev Cache : Type := Dict ℚ

/-- One bulk-fetch attempt: `none` is any raised error (network failure, bad
HTTP status, invalid JSON, or a non-`success` result marker); `some rates`
is a successful response. -/
abbrev RateFetch : Type := Nat → Option Rates

/-- Cache population from one successful bulk response (source lines 97-100):
`for curr, rate in rates.items(): if rate > 0: exchange_rates[curr.upper()] = 1/rate`. -/
def populateRates (cache : Cache) (rates : Rates) : Cache :=
  rates.foldl
    (fun c p => if 0 < p.2 then alSet c (pyUpper p.1) (1 / p.2) else c) cache

/-- Body of `get_exchange_rate` (source lines 78-118), by fuel.  The fuel is
the number of attempts still possible; the wrapper supplies exactly
`max_retries + 1 - retry_count`, so the `0` case is never reached. -/
def getRateGo (fetch : RateFetch) (max_retries : Nat) :
    Nat → Nat → Cache → String → Option ℚ × Cache
  | 0, _, cache, _ => (none, cache)
  | fuel + 1, retry_count, cache, from_currency =>
    if from_currency = "USD" then (some 1, cache)
    else
      let c := pyStrip (pyUpper from_currency)
      match alGet cache c with
      | some r => (some r, cache)
      | none =>
        match fetch retry_count with
        | some rates =>
          let cache' := populateRates cache rates
          match alGet cache' c with
          | some r => (some r, cache')
          | none => (none, cache')
        | none =>
          if retry_count < max_retries then
            getRateGo fetch max_retries fuel (retry_count + 1) cache c
          else (none, cache)

/-- `get_exchange_rate(from_currency, retry_count, max_retries)`: returns the
factor converting `from_currency` to USD, or `none` ("unavailable"), plus the
updated cache. -/
def get_exchange_rate (fetch : RateFetch) (cache : Cache)
    (from_currency : String) (retry_count : Nat := 0) (max_retries : Nat := 3) :
    Option ℚ × Cache :=
  getRateGo fetch max_retries (max_retries + 1 - retry_count) retry_count
    cache from_currency

/-! ## `convert_to_usd` -/

/-- `convert_to_usd(amount, from_currency)` (source lines 120-143) at the
types occurring at its call sites (`amount` a float or `None`,
`from_currency` a `str`). -/
def convert_to_usd (fetch : RateFetch) (cache : Cache)
    (amount : Option ℚ) (from_currency : String) : Option ℚ × Cache :=
  match amount with
  | none => (none, cache)
  | some a =>
    if from_currency = "" ∨ pyStrip from_currency = "" then
      (some (round2 a), cache)
    else
      let c := pyStrip (pyUpper from_currency)
      if c = "USD" then (some (round2 a), cache)
      else
        match get_exchange_rate fetch cache c 0 3 with
        | (some r, cache') => (some (round2 (a * r)), cache')
        | (none, cache') => (none, cache')

/-! ## Python `float(x)` -/

/-- Numeric value of a digit run. -/
def digitsToNat (l : List Char) : Nat :=
  l.foldl (fun a c => a * 10 + (c.toNat - 48)) 0

/-- Split a char list at the first `e`/`E` (exponent marker). -/
def splitExp : List Char → List Char × Option (List Char)
  | [] => ([], none)
  | c :: t =>
    if c = 'e' ∨ c = 'E' then ([], some t)
    else
      let r := splitExp t
      (c :: r.1, r.2)

/-- Split a char list at the first `.`. -/
def splitDot : List Char → List Char × Option (List Char)
  | [] => ([], none)
  | c :: t =>
    if c = '.' then ([], some t)
    else
      let r := splitDot t
      (c :: r.1, r.2)

/-- Value of an unsigned decimal mantissa `int[.frac]`; `none` if malformed. -/
def parseMantissa (l : List Char) : Option ℚ :=
  let (ip, fp?) := splitDot l
  match fp? with
  | none =>
    if ip ≠ [] ∧ ip.all Char.isDigit then some (digitsToNat ip : ℚ) else none
  | some fp =>
    if (ip ≠ [] ∨ fp ≠ []) ∧ ip.all Char.isDigit ∧ fp.all Char.isDigit then
      some ((digitsToNat ip : ℚ) + (digitsToNat fp : ℚ) / 10 ^ fp.length)
    else none

/-- Signed integer exponent; `none` if malformed. -/
def parseExp (l : List Char) : Option ℤ :=
  let (sg, ds) : ℤ × List Char :=
    match l with
    | '+' :: t => (1, t)
    | '-' :: t => (-1, t)
    | _ => (1, l)
  if ds ≠ [] ∧ ds.all Char.isDigit then some (sg * digitsToNat ds) else none

/-- Python `float(s)` for a string (the decimal fragment: optional sign,
digits with one optional dot, optional exponent, surrounding whitespace;
`inf`/`nan`/underscores are not modelled — the program never meets them).
`none` means `float` raises `ValueError`. -/
def pyFloatOfString (s : String) : Option ℚ :=
  let l := pyStripL s.data
  let (sign, l) : ℚ × List Char :=
    match l with
    | '+' :: t => (1, t)
    | '-' :: t => (-1, t)
    | _ => (1, l)
  let (mant, exp?) := splitExp l
  match parseMantissa mant with
  | none => none
  | some m =>
    match exp? with
    | none => some (sign * m)
    | some e =>
      match parseExp e with
      | none => none
      | some z => some (sign * m * 10 ^ z)

/-- Python `float(x)` on a JSON value; `none` means it raises
(`ValueError` or `TypeError`). -/
def pyFloat : JValue → Option ℚ
  | .num q => some q
  | .jbool b => some (if b then 1 else 0)
  | .str s => pyFloatOfString s
  | _ => none

/-! ## `datetime.strptime(s, "%Y-%m-%d")` -/

/-- Gregorian leap year. -/
def isLeap (y : Nat) : Bool := y % 4 = 0 && (y % 100 ≠ 0 || y % 400 = 0)

/-- Days in a month (month already `1..12`). -/
def daysInMonth (y m : Nat) : Nat :=
  if m = 2 then (if isLeap y then 29 else 28)
  else if m = 4 ∨ m = 6 ∨ m = 9 ∨ m = 11 then 30
  else 31

/-- The alternatives of CPython's `%m` pattern `1[0-2]|0[1-9]|[1-9]`,
in order: each gives the month value and the remaining input. -/
def monthAlts (l : List Char) : List (Nat × List Char) :=
  (match l with
   | '1' :: c :: t =>
     if c = '0' ∨ c = '1' ∨ c = '2' then [(10 + (c.toNat - 48), t)] else []
   | _ => []) ++
  (match l with
   | '0' :: c :: t =>
     if '1' ≤ c ∧ c ≤ '9' then [(c.toNat - 48, t)] else []
   | _ => []) ++
  (match l with
   | c :: t => if '1' ≤ c ∧ c ≤ '9' then [(c.toNat - 48, t)] else []
   | [] => [])

/-- The alternatives of CPython's `%d` pattern
`3[01]|[12]\d|0[1-9]|[1-9]| [1-9]`, in order. -/
def dayAlts (l : List Char) : List (Nat × List Char) :=
  (match l with
   | '3' :: c :: t =>
     if c = '0' ∨ c = '1' then [(30 + (c.toNat - 48), t)] else []
   | _ => []) ++
  (match l with
   | c :: d :: t =>
     if (c = '1' ∨ c = '2') ∧ d.isDigit then
       [((c.toNat - 48) * 10 + (d.toNat - 48), t)]
     else []
   | _ => []) ++
  (match l with
   | '0' :: c :: t =>
     if '1' ≤ c ∧ c ≤ '9' then [(c.toNat - 48, t)] else []
   | _ => []) ++
  (match l with
   | c :: t => if '1' ≤ c ∧ c ≤ '9' then [(c.toNat - 48, t)] else []
   | [] => []) ++
  (match l with
   | ' ' :: c :: t =>
     if '1' ≤ c ∧ c ≤ '9' then [(c.toNat - 48, t)] else []
   | _ => [])

/-- `datetime.strptime(s, "%Y-%m-%d")` succeeds: exactly four year digits,
`%m`/`%d` per CPython's patterns, whole string consumed, and the triple is a
real calendar date with year ≥ 1. -/
def strptimeYmd (s : String) : Bool :=
  match s.data with
  | y1 :: y2 :: y3 :: y4 :: '-' :: rest =>
    y1.isDigit && y2.isDigit && y3.isDigit && y4.isDigit &&
    (let y := digitsToNat [y1, y2, y3, y4]
     (monthAlts rest).any fun mr =>
       match mr.2 with
       | '-' :: rest2 =>
         (dayAlts rest2).any fun dr =>
           dr.2.isEmpty && 1 ≤ y && dr.1 ≤ daysInMonth y mr.1
       | _ => false)
  | _ => false

/-! ## The extractor: validation and `parse_transaction_with_llm` -/

def validTransactionTypes : List String :=
  ["Payment", "Refund", "Failed Charge", "Charge"]

def validCurrencies : List String := ["USD", "EUR", "GBP", "RUB", "BRL"]

/-- Python `v in set_of_strings`: `True`/`False` for hashable values,
`TypeError` for unhashable containers. -/
def pyMemStrSet (v : JValue) (l : List String) : Except String Bool :=
  match v with
  | .arr => .error "unhashable type"
  | .obj => .error "unhashable type"
  | .str s => .ok (decide (s ∈ l))
  | _ => .ok false

/-- Validation step for `transaction_type` (source lines 203-205). -/
def vType (d : Dict JValue) : Except String (Dict JValue) :=
  match alGet d "transaction_type" with
  | none => .ok (alSet d "transaction_type" (.str "Unknown"))
  | some v =>
    match pyMemStrSet v validTransactionTypes with
    | .error e => .error e
    | .ok true => .ok d
    | .ok false => .ok (alSet d "transaction_type" (.str "Unknown"))

/-- Validation step for `amount` (source lines 207-212): if present and not
`None`, coerce with `float(...)`; both `ValueError` and `TypeError` are
caught and yield `None`. -/
def vAmount (d : Dict JValue) : Dict JValue :=
  match alGet d "amount" with
  | none => d
  | some .null => d
  | some v =>
    match pyFloat v with
    | some q => alSet d "amount" (.num q)
    | none => alSet d "amount" .null

/-- Validation step for `currency` (source lines 214-216). -/
def vCurrency (d : Dict JValue) : Except String (Dict JValue) :=
  match alGet d "currency" with
  | none => .ok d
  | some v =>
    match pyMemStrSet v validCurrencies with
    | .error e => .error e
    | .ok true => .ok d
    | .ok false => .ok (alSet d "currency" (.str ""))

/-- Validation step for `date` (source lines 218-224).  Only `ValueError`
(a string not matching the format) is caught; `strptime` on a non-string
(including `None`) raises `TypeError`, which escapes this step. -/
def vDate (d : Dict JValue) : Except String (Dict JValue) :=
  match alGet d "date" with
  | none => .ok d
  | some (.str s) =>
    if strptimeYmd s then .ok d else .ok (alSet d "date" (.str ""))
  | some _ => .error "strptime() argument 1 must be str"

/-- The `defaults` dict of source lines 227-234, in insertion order. -/
def defaultsList : Dict JValue :=
  [("transaction_type", .str "Unknown"), ("name", .str ""), ("email", .str ""),
   ("amount", .null), ("currency", .str ""), ("date", .str "")]

/-- One iteration of the defaults loop (source lines 236-238). -/
def defaultStep (d : Dict JValue) (kv : String × JValue) : Dict JValue :=
  match alGet d kv.1 with
  | none => alSet d kv.1 kv.2
  | some .null => alSet d kv.1 kv.2
  | some _ => d

/-- The defaults loop (source lines 236-238). -/
def applyDefaults (d : Dict JValue) : Dict JValue :=
  defaultsList.foldl defaultStep d

/-- The whole validate-and-clean block (source lines 198-240), as run inside
the `try`: the four steps in source order; an exception escaping any step is
`.error` with its message and aborts the rest. -/
def validate (d : Dict JValue) : Except String (Dict JValue) :=
  match vType d with
  | .error e => .error e
  | .ok d1 =>
    match vCurrency (vAmount d1) with
    | .error e => .error e
    | .ok d3 =>
      match vDate d3 with
      | .error e => .error e
      | .ok d4 => .ok (applyDefaults d4)

/-- The terminal fallback record (source lines 250-257). -/
def fullDefaultDict : Dict JValue :=
  [("transaction_type", .str "Unknown"), ("name", .str ""), ("email", .str ""),
   ("amount", .null), ("currency", .str ""), ("date", .str "")]

/-- Outcome of one attempt of the LLM service call plus response handling
(source lines 174-196): `raised msg` is any exception raised by the client
call or by the empty-response checks, with message `str(e)`; `badJson msg`
is a `json.JSONDecodeError` re-raised from `json.loads`; `okJson d` is a
successfully parsed JSON object. -/
inductive LLMOutcome where
  | raised (msg : String)
  | badJson (msg : String)
  | okJson (d : Dict JValue)

/-- One attempt's result before the outer handler: the returned dict or the
message of the exception reaching `except Exception as e`. -/
def attemptResult (outcome : LLMOutcome) : Except String (Dict JValue) :=
  match outcome with
  | .raised msg => .error msg
  | .badJson msg => .error msg
  | .okJson d => validate d

/-- Body of `parse_transaction_with_llm` (source lines 148-257), by fuel;
also returns the list of back-off waits slept (seconds).  The wrapper
supplies fuel `max_retries + 1 - retry_count`, the exact number of attempts
the source can make, so the `0` case is never reached. -/
def parseTxnGo (oracle : Nat → LLMOutcome) (max_retries : Nat) :
    Nat → Nat → Dict JValue × List Nat
  | 0, _ => (fullDefaultDict, [])
  | fuel + 1, retry_count =>
    match attemptResult (oracle retry_count) with
    | .ok d => (d, [])
    | .error msg =>
      if isRateLimitMsg msg ∧ retry_count < max_retries then
        let r := parseTxnGo oracle max_retries fuel (retry_count + 1)
        (r.1, 2 ^ retry_count * 20 :: r.2)
      else (fullDefaultDict, [])

/-- `parse_transaction_with_llm(text, retry_count, max_retries)`.  The text
only feeds the prompt of the external call, which the oracle plays, so it
does not influence the model's result. -/
def parse_transaction_with_llm (oracle : Nat → LLMOutcome) (_text : String)
    (retry_count : Nat := 0) (max_retries : Nat := 3) :
    Dict JValue × List Nat :=
  parseTxnGo oracle max_retries (max_retries + 1 - retry_count) retry_count

/-! ## The batch runner: `process_transactions` -/

/-- One CSV data row (`csv_transaction`, source lines 349-357). -/
structure CsvRow where
  transaction_type : JValue
  name : JValue
  email : JValue
  amount_usd : Option ℚ
  original_amount : JValue
  original_currency : JValue
  date : JValue
  deriving DecidableEq, Repr

/-- Assemble `csv_transaction` (source lines 349-357); a missing key is a
`KeyError` escaping to the per-line handler. -/
def mkRow (t : Dict JValue) (amount_usd : Option ℚ) : Except String CsvRow :=
  match alGet t "transaction_type", alGet t "name", alGet t "email",
      alGet t "amount", alGet t "currency", alGet t "date" with
  | some tt, some nm, some em, some am, some cur, some dt =>
    .ok ⟨tt, nm, em, amount_usd, am, cur, dt⟩
  | _, _, _, _, _, _ => .error "KeyError"

/-- The fallback's currency normalisation (source line 332):
`transaction.get('currency', '').upper().strip() if transaction.get('currency') else ''`.
`validate` guarantees a string; on other (unreachable) values the attribute
access raises. -/
def fallbackCurrency (t : Dict JValue) : Except String String :=
  match alGet t "currency" with
  | none => .ok ""
  | some v =>
    if pyFalsyJ v then .ok ""
    else
      match v with
      | .str s => .ok (pyStrip (pyUpper s))
      | _ => .error "AttributeError"

/-- Python `float(x)` where failure raises to the per-line handler. -/
def pyFloatE (v : JValue) : Except String ℚ :=
  match pyFloat v with
  | some q => .ok q
  | none => .error "could not convert to float"

/-- `convert_to_usd` applied to the dynamically-typed dict values the runner
passes (source line 328).  Mirrors `convert_to_usd` exactly; `validate`
guarantees `amount` is a float and `currency` a `str`, the other branches
model the exceptions Python would raise there. -/
def convertJ (fetch : RateFetch) (cache : Cache) (amount currency : JValue) :
    Except String (Option ℚ) × Cache :=
  if amount = .null then (.ok none, cache)
  else if pyFalsyJ currency then
    ((pyFloatE amount).map (fun q => some (round2 q)), cache)
  else
    match currency with
    | .str s =>
      if pyStrip s = "" then ((pyFloatE amount).map (fun q => some (round2 q)), cache)
      else
        let c := pyStrip (pyUpper s)
        if c = "USD" then ((pyFloatE amount).map (fun q => some (round2 q)), cache)
        else
          match get_exchange_rate fetch cache c 0 3 with
          | (some r, cache') =>
            ((pyFloatE amount).map (fun q => some (round2 (q * r))), cache')
          | (none, cache') => (.ok none, cache')
    | _ => (.error "AttributeError", cache)

/-- Per-line oracle bundle: the LLM oracle for this line's
`parse_transaction_with_llm` call, and the rate-fetch oracles of the two
possible `get_exchange_rate` call sites (the one inside `convert_to_usd`,
and the extra direct lookup of source line 339). -/
structure LineOracle where
  llm : Nat → LLMOutcome
  convFetch : RateFetch
  retryFetch : RateFetch

/-- `re.sub(r'^\s*\d+\|', '', line)` (source line 314). -/
def removeLineNum (s : String) : String :=
  let rest := s.data.dropWhile pyIsSpace
  let ds := rest.takeWhile Char.isDigit
  let rest2 := rest.dropWhile Char.isDigit
  match ds, rest2 with
  | _ :: _, '|' :: t => ⟨t⟩
  | _, _ => s

/-- The per-line body of the processing loop (source lines 313-379), up to
the CSV append: the produced row or the escaping exception, together with
the rate cache as mutated so far (a global surviving the exception). -/
def processLine (o : LineOracle) (rawLine : String) (cache : Cache) :
    Except String CsvRow × Cache :=
  let line := pyStrip (removeLineNum rawLine)
  let transaction := (parse_transaction_with_llm o.llm line 0 3).1
  match alGet transaction "amount" with
  | none => (.error "KeyError", cache)
  | some vAm =>
    if vAm = .null then (mkRow transaction none, cache)
    else
      match alGet transaction "currency" with
      | none => (.error "KeyError", cache)
      | some vCur =>
        match convertJ o.convFetch cache vAm vCur with
        | (.error e, cache') => (.error e, cache')
        | (.ok (some u), cache') => (mkRow transaction (some u), cache')
        | (.ok none, cache') =>
          match fallbackCurrency transaction with
          | .error e => (.error e, cache')
          | .ok currency =>
            if currency = "" ∨ currency = "USD" then
              match pyFloatE vAm with
              | .error e => (.error e, cache')
              | .ok q => (mkRow transaction (some (round2 q)), cache')
            else
              match get_exchange_rate o.retryFetch cache' currency 0 3 with
              | (some r, cache'') =>
                match pyFloatE vAm with
                | .error e => (.error e, cache'')
                | .ok q => (mkRow transaction (some (round2 (q * r))), cache'')
              | (none, cache'') =>
                match pyFloatE vAm with
                | .error e => (.error e, cache'')
                | .ok q => (mkRow transaction (some (round2 q)), cache'')

/-- The loop of source lines 311-384: each line's row is appended on
success; an exception is logged and the line skipped; the cache persists
either way. -/
def processLoop (oracles : Nat → LineOracle) :
    List String → Nat → Cache → List CsvRow × Nat × Cache
  | [], _, cache => ([], 0, cache)
  | line :: rest, i, cache =>
    let r := processLine (oracles i) line cache
    let rec' := processLoop oracles rest (i + 1) r.2
    match r.1 with
    | .ok row => (row :: rec'.1, rec'.2.1 + 1, rec'.2.2)
    | .error _ => rec'

/-- `process_transactions(input, output)` (source lines 288-388) on the
input file's lines, with the Supabase sink disabled (no credentials): the
CSV data rows written, the returned `processed_count`, and the final rate
cache.  The cache starts empty (`exchange_rates = {}` at process start). -/
def process_transactions (oracles : Nat → LineOracle)
    (inputLines : List String) : List CsvRow × Nat × Cache :=
  let lines := (inputLines.map pyStrip).filter (fun l => l ≠ "")
  processLoop oracles lines 0 []

/-- `total_transactions` (source line 297): the count reported before
processing begins. -/
def totalTransactions (inputLines : List String) : Nat :=
  ((inputLines.map pyStrip).filter (fun l => l ≠ "")).length

/-- The row a fully-defaulted record yields. -/
def defaultCsvRow : CsvRow :=
  ⟨.str "Unknown", .str "", .str "", none, .null, .str "", .str ""⟩

/-! ## Association-list lemmas -/

theorem alGet_alSet_self {α : Type} (d : Dict α) (k : String) (v : α) :
    alGet (alSet d k v) k = some v := by
  induction d with
  | nil => simp [alGet, alSet]
  | cons p t ih =>
    by_cases h : p.1 = k
    · simp [alSet, h, alGet]
    · simp [alSet, h, alGet, ih]

theorem alGet_alSet_ne {α : Type} (d : Dict α) (k k' : String) (v : α)
    (h : k' ≠ k) : alGet (alSet d k v) k' = alGet d k' := by
  have hkk : ¬(k = k') := fun hh => h hh.symm
  induction d with
  | nil =>
    simp only [alSet, alGet]
    rw [if_neg hkk]
  | cons p t ih =>
    obtain ⟨pk, pv⟩ := p
    by_cases hp : pk = k
    · subst hp
      simp only [alSet, if_pos rfl, alGet]
      rw [if_neg hkk, if_neg hkk]
    · simp only [alSet, if_neg hp, alGet]
      by_cases hpk' : pk = k'
      · rw [if_pos hpk', if_pos hpk']
      · rw [if_neg hpk', if_neg hpk', ih]

/-! ## Character and string algebra for `upper` / `strip` -/

theorem toNat_charOfNat (n : Nat) (h : n < 55296) :
    (Char.ofNat n).toNat = n := by
  rw [Char.ofNat, dif_pos (Or.inl h)]
  rfl

theorem pyUpperChar_toNat_of_lower (c : Char)
    (h : 'a' ≤ c ∧ c ≤ 'z') : (pyUpperChar c).toNat = c.toNat - 32 := by
  have h97 : 97 ≤ c.toNat := h.1
  have h122 : c.toNat ≤ 122 := h.2
  rw [pyUpperChar, if_pos h, toNat_charOfNat]
  omega

theorem pyUpperChar_of_not_lower (c : Char)
    (h : ¬('a' ≤ c ∧ c ≤ 'z')) : pyUpperChar c = c := by
  rw [pyUpperChar, if_neg h]

theorem char_le_iff_toNat {a b : Char} : a ≤ b ↔ a.toNat ≤ b.toNat := by
  rw [Char.le_def, UInt32.le_def, BitVec.le_def]
  exact Iff.rfl

theorem char_eq_iff_toNat {a b : Char} : a = b ↔ a.toNat = b.toNat := by
  constructor
  · intro h; rw [h]
  · intro h
    rw [← Char.ofNat_toNat a, ← Char.ofNat_toNat b, h]

theorem pyIsSpace_eq_false_of_toNat (x : Char) (hx : 33 ≤ x.toNat) :
    pyIsSpace x = false := by
  have hne : ∀ d : Char, d.toNat < 33 → ¬(x = d) := by
    intro d hd he
    rw [char_eq_iff_toNat] at he
    omega
  simp only [pyIsSpace, Bool.or_eq_false_iff, decide_eq_false_iff_not]
  exact ⟨⟨⟨⟨⟨hne ' ' (by decide), hne '\t' (by decide)⟩, hne '\n' (by decide)⟩,
    hne '\r' (by decide)⟩, hne '\x0b' (by decide)⟩, hne '\x0c' (by decide)⟩

theorem pyIsSpace_pyUpperChar (c : Char) :
    pyIsSpace (pyUpperChar c) = pyIsSpace c := by
  by_cases h : 'a' ≤ c ∧ c ≤ 'z'
  · have h97 : 97 ≤ c.toNat := char_le_iff_toNat.mp h.1
    have hu := pyUpperChar_toNat_of_lower c h
    rw [pyIsSpace_eq_false_of_toNat c (by omega),
      pyIsSpace_eq_false_of_toNat (pyUpperChar c) (by omega)]
  · rw [pyUpperChar_of_not_lower c h]

theorem pyUpperChar_pyUpperChar (c : Char) :
    pyUpperChar (pyUpperChar c) = pyUpperChar c := by
  by_cases h : 'a' ≤ c ∧ c ≤ 'z'
  · have h97 : 97 ≤ c.toNat := char_le_iff_toNat.mp h.1
    have h122 : c.toNat ≤ 122 := char_le_iff_toNat.mp h.2
    have hu := pyUpperChar_toNat_of_lower c h
    apply pyUpperChar_of_not_lower
    intro hcon
    have := char_le_iff_toNat.mp hcon.1
    have h97' : ('a' : Char).toNat = 97 := by decide
    rw [h97', hu] at this
    omega
  · rw [pyUpperChar_of_not_lower c h, pyUpperChar_of_not_lower c h]

theorem dropWhile_eq_self_of_head {α : Type} (p : α → Bool) (l : List α)
    (h : ∀ x ∈ l.head?, p x = false) : l.dropWhile p = l := by
  cases l with
  | nil => rfl
  | cons a t =>
    have ha : p a = false := h a rfl
    simp [List.dropWhile_cons, ha]

theorem head_dropWhile_false {α : Type} (p : α → Bool) (l : List α) :
    ∀ x ∈ (l.dropWhile p).head?, p x = false := by
  intro x hx
  have h := List.head?_dropWhile_not p l
  revert h
  cases hh : (l.dropWhile p).head? with
  | none => simp [hh] at hx
  | some y =>
    intro h
    rw [hh] at hx
    cases hx
    exact h

theorem dropWhile_dropWhile {α : Type} (p : α → Bool) (l : List α) :
    (l.dropWhile p).dropWhile p = l.dropWhile p :=
  dropWhile_eq_self_of_head p _ (head_dropWhile_false p l)

theorem pyStripL_map_upper (l : List Char) :
    pyStripL (l.map pyUpperChar) = (pyStripL l).map pyUpperChar := by
  have hcomp : (pyIsSpace ∘ pyUpperChar) = pyIsSpace := by
    funext c
    exact pyIsSpace_pyUpperChar c
  unfold pyStripL
  rw [List.dropWhile_map, hcomp, ← List.map_reverse, List.dropWhile_map, hcomp,
    ← List.map_reverse]

theorem pyStripL_head_false (l : List Char) :
    ∀ x ∈ (pyStripL l).head?, pyIsSpace x = false := by
  intro x hx
  have hx' : ((l.dropWhile pyIsSpace).reverse.dropWhile pyIsSpace).reverse.head?
      = some x := Option.mem_def.mp hx
  set A := l.dropWhile pyIsSpace with hA
  set C := A.reverse.dropWhile pyIsSpace with hC
  have hsplit : A.reverse.takeWhile pyIsSpace ++ C = A.reverse := by
    rw [hC]
    exact List.takeWhile_append_dropWhile pyIsSpace A.reverse
  have hArev : C.reverse ++ (A.reverse.takeWhile pyIsSpace).reverse = A := by
    have h2 := congrArg List.reverse hsplit
    simpa [List.reverse_append] using h2
  cases hCr : C.reverse with
  | nil => rw [hCr] at hx'; cases hx'
  | cons b t =>
    rw [hCr] at hx'
    have hbx : b = x := by
      have hsome : some b = some x := hx'
      cases hsome
      rfl
    have hAhead : A.head? = some b := by
      rw [← hArev, hCr]
      rfl
    rw [← hbx]
    refine head_dropWhile_false pyIsSpace l b ?_
    show b ∈ A.head?
    rw [hAhead]
    rfl

theorem pyStripL_idem (l : List Char) : pyStripL (pyStripL l) = pyStripL l := by
  have h1 : (pyStripL l).dropWhile pyIsSpace = pyStripL l :=
    dropWhile_eq_self_of_head _ _ (pyStripL_head_false l)
  show (((pyStripL l).dropWhile pyIsSpace).reverse.dropWhile pyIsSpace).reverse
      = pyStripL l
  rw [h1]
  unfold pyStripL
  rw [List.reverse_reverse, dropWhile_dropWhile]

theorem string_mk_inj {l1 l2 : List Char} :
    (⟨l1⟩ : String) = ⟨l2⟩ ↔ l1 = l2 := by
  constructor
  · intro h
    exact congrArg String.data h
  · intro h
    rw [h]

theorem pyStrip_pyUpper (s : String) :
    pyStrip (pyUpper s) = pyUpper (pyStrip s) := by
  apply string_mk_inj.mpr
  exact pyStripL_map_upper s.data

theorem pyStrip_pyStrip (s : String) : pyStrip (pyStrip s) = pyStrip s := by
  apply string_mk_inj.mpr
  exact pyStripL_idem s.data

theorem pyUpper_pyUpper (s : String) : pyUpper (pyUpper s) = pyUpper s := by
  apply string_mk_inj.mpr
  show (s.data.map pyUpperChar).map pyUpperChar = s.data.map pyUpperChar
  rw [List.map_map]
  apply List.map_congr_left
  intro c _
  exact pyUpperChar_pyUpperChar c

theorem pyUpper_eq_empty_iff (s : String) : pyUpper s = "" ↔ s = "" := by
  constructor
  · intro h
    have hd : s.data.map pyUpperChar = [] := congrArg String.data h
    have hnil : s.data = [] := List.map_eq_nil_iff.mp hd
    cases s
    exact string_mk_inj.mpr hnil
  · intro h
    rw [h]
    rfl

/-! ## Shape of every record the extractor returns -/

/-- The structural invariant of every dict `parse_transaction_with_llm`
returns: the six keys are present; `transaction_type` is a valid type or
`Unknown`; `amount` is `None` or a number; `currency` is a valid code or
empty; `date` is a string; `name` and `email` are never `None` (but are
otherwise unvalidated). -/
structure DictShape (d : Dict JValue) : Prop where
  tt : ∃ s, alGet d "transaction_type" = some (.str s) ∧
    (s ∈ validTransactionTypes ∨ s = "Unknown")
  amt : alGet d "amount" = some .null ∨ ∃ q, alGet d "amount" = some (.num q)
  cur : ∃ s, alGet d "currency" = some (.str s) ∧ (s ∈ validCurrencies ∨ s = "")
  dt : ∃ s, alGet d "date" = some (.str s)
  nm : ∃ v, alGet d "name" = some v ∧ v ≠ .null
  em : ∃ v, alGet d "email" = some v ∧ v ≠ .null

theorem dictShape_fullDefault : DictShape fullDefaultDict := by
  refine ⟨⟨"Unknown", ?_, Or.inr rfl⟩, Or.inl ?_, ⟨"", ?_, Or.inr rfl⟩,
    ⟨"", ?_⟩, ⟨.str "", ?_, by decide⟩, ⟨.str "", ?_, by decide⟩⟩ <;> rfl

theorem vType_ok {d d' : Dict JValue} (h : vType d = .ok d') :
    (∀ k, k ≠ "transaction_type" → alGet d' k = alGet d k) ∧
    ∃ s, alGet d' "transaction_type" = some (.str s) ∧
      (s ∈ validTransactionTypes ∨ s = "Unknown") := by
  unfold vType at h
  cases hg : alGet d "transaction_type" with
  | none =>
    rw [hg] at h
    cases h
    exact ⟨fun k hk => alGet_alSet_ne d _ k _ hk,
      "Unknown", alGet_alSet_self d _ _, Or.inr rfl⟩
  | some v =>
    rw [hg] at h
    cases v with
    | str s =>
      by_cases hs : s ∈ validTransactionTypes
      · simp only [pyMemStrSet, decide_eq_true hs] at h
        cases h
        exact ⟨fun k _ => rfl, s, hg, Or.inl hs⟩
      · simp only [pyMemStrSet, decide_eq_false hs] at h
        cases h
        exact ⟨fun k hk => alGet_alSet_ne d _ k _ hk,
          "Unknown", alGet_alSet_self d _ _, Or.inr rfl⟩
    | null =>
      simp only [pyMemStrSet] at h
      cases h
      exact ⟨fun k hk => alGet_alSet_ne d _ k _ hk,
        "Unknown", alGet_alSet_self d _ _, Or.inr rfl⟩
    | jbool b =>
      simp only [pyMemStrSet] at h
      cases h
      exact ⟨fun k hk => alGet_alSet_ne d _ k _ hk,
        "Unknown", alGet_alSet_self d _ _, Or.inr rfl⟩
    | num q =>
      simp only [pyMemStrSet] at h
      cases h
      exact ⟨fun k hk => alGet_alSet_ne d _ k _ hk,
        "Unknown", alGet_alSet_self d _ _, Or.inr rfl⟩
    | arr => exact Except.noConfusion h
    | obj => exact Except.noConfusion h

theorem vAmount_spec (d : Dict JValue) :
    (∀ k, k ≠ "amount" → alGet (vAmount d) k = alGet d k) ∧
    (alGet (vAmount d) "amount" = none ∨
     alGet (vAmount d) "amount" = some .null ∨
     ∃ q, alGet (vAmount d) "amount" = some (.num q)) := by
  have hfl : ∀ v : JValue, vAmount d = (match pyFloat v with
      | some q => alSet d "amount" (JValue.num q)
      | none => alSet d "amount" JValue.null) →
      (∀ k, k ≠ "amount" → alGet (vAmount d) k = alGet d k) ∧
      (alGet (vAmount d) "amount" = none ∨
       alGet (vAmount d) "amount" = some .null ∨
       ∃ q, alGet (vAmount d) "amount" = some (.num q)) := by
    intro v hv
    cases hpf : pyFloat v with
    | some q =>
      rw [hpf] at hv
      rw [hv]
      exact ⟨fun k hk => alGet_alSet_ne d _ k _ hk,
        Or.inr (Or.inr ⟨q, alGet_alSet_self d _ _⟩)⟩
    | none =>
      rw [hpf] at hv
      rw [hv]
      exact ⟨fun k hk => alGet_alSet_ne d _ k _ hk,
        Or.inr (Or.inl (alGet_alSet_self d _ _))⟩
  have hid : vAmount d = d →
      (alGet d "amount" = none ∨ alGet d "amount" = some .null) →
      (∀ k, k ≠ "amount" → alGet (vAmount d) k = alGet d k) ∧
      (alGet (vAmount d) "amount" = none ∨
       alGet (vAmount d) "amount" = some .null ∨
       ∃ q, alGet (vAmount d) "amount" = some (.num q)) := by
    intro he hor
    rw [he]
    refine ⟨fun k _ => rfl, ?_⟩
    cases hor with
    | inl h0 => exact Or.inl h0
    | inr h0 => exact Or.inr (Or.inl h0)
  cases hg : alGet d "amount" with
  | none =>
    refine hid ?_ (Or.inl hg)
    unfold vAmount
    rw [hg]
  | some v =>
    cases v with
    | null =>
      refine hid ?_ (Or.inr hg)
      unfold vAmount
      rw [hg]
    | jbool b =>
      refine hfl (.jbool b) ?_
      unfold vAmount
      rw [hg]
    | num q =>
      refine hfl (.num q) ?_
      unfold vAmount
      rw [hg]
    | str s =>
      refine hfl (.str s) ?_
      unfold vAmount
      rw [hg]
    | arr =>
      refine hfl .arr ?_
      unfold vAmount
      rw [hg]
    | obj =>
      refine hfl .obj ?_
      unfold vAmount
      rw [hg]

theorem vCurrency_ok {d d' : Dict JValue} (h : vCurrency d = .ok d') :
    (∀ k, k ≠ "currency" → alGet d' k = alGet d k) ∧
    (alGet d' "currency" = none ∨
     ∃ s, alGet d' "currency" = some (.str s) ∧ (s ∈ validCurrencies ∨ s = "")) := by
  unfold vCurrency at h
  cases hg : alGet d "currency" with
  | none =>
    rw [hg] at h
    cases h
    exact ⟨fun k _ => rfl, Or.inl hg⟩
  | some v =>
    rw [hg] at h
    cases v with
    | str s =>
      by_cases hs : s ∈ validCurrencies
      · simp only [pyMemStrSet, decide_eq_true hs] at h
        cases h
        exact ⟨fun k _ => rfl, Or.inr ⟨s, hg, Or.inl hs⟩⟩
      · simp only [pyMemStrSet, decide_eq_false hs] at h
        cases h
        exact ⟨fun k hk => alGet_alSet_ne d _ k _ hk,
          Or.inr ⟨"", alGet_alSet_self d _ _, Or.inr rfl⟩⟩
    | null =>
      simp only [pyMemStrSet] at h
      cases h
      exact ⟨fun k hk => alGet_alSet_ne d _ k _ hk,
        Or.inr ⟨"", alGet_alSet_self d _ _, Or.inr rfl⟩⟩
    | jbool b =>
      simp only [pyMemStrSet] at h
      cases h
      exact ⟨fun k hk => alGet_alSet_ne d _ k _ hk,
        Or.inr ⟨"", alGet_alSet_self d _ _, Or.inr rfl⟩⟩
    | num q =>
      simp only [pyMemStrSet] at h
      cases h
      exact ⟨fun k hk => alGet_alSet_ne d _ k _ hk,
        Or.inr ⟨"", alGet_alSet_self d _ _, Or.inr rfl⟩⟩
    | arr => exact Except.noConfusion h
    | obj => exact Except.noConfusion h

theorem vDate_ok {d d' : Dict JValue} (h : vDate d = .ok d') :
    (∀ k, k ≠ "date" → alGet d' k = alGet d k) ∧
    (alGet d' "date" = none ∨ ∃ s, alGet d' "date" = some (.str s)) := by
  unfold vDate at h
  cases hg : alGet d "date" with
  | none =>
    rw [hg] at h
    cases h
    exact ⟨fun k _ => rfl, Or.inl hg⟩
  | some v =>
    rw [hg] at h
    cases v with
    | str s =>
      dsimp only at h
      by_cases hs : strptimeYmd s = true
      · rw [if_pos hs] at h
        cases h
        exact ⟨fun k _ => rfl, Or.inr ⟨s, hg⟩⟩
      · rw [if_neg hs] at h
        cases h
        exact ⟨fun k hk => alGet_alSet_ne d _ k _ hk,
          Or.inr ⟨"", alGet_alSet_self d _ _⟩⟩
    | null => exact Except.noConfusion h
    | jbool b => exact Except.noConfusion h
    | num q => exact Except.noConfusion h
    | arr => exact Except.noConfusion h
    | obj => exact Except.noConfusion h

theorem defaultStep_get_ne (d : Dict JValue) (kv : String × JValue)
    (k' : String) (h : k' ≠ kv.1) :
    alGet (defaultStep d kv) k' = alGet d k' := by
  unfold defaultStep
  cases hg : alGet d kv.1 with
  | none => exact alGet_alSet_ne d _ k' _ h
  | some v =>
    cases v with
    | null => exact alGet_alSet_ne d _ k' _ h
    | jbool b => rfl
    | num q => rfl
    | str s => rfl
    | arr => rfl
    | obj => rfl

theorem defaultStep_of_none (d : Dict JValue) (kv : String × JValue)
    (h : alGet d kv.1 = none) : defaultStep d kv = alSet d kv.1 kv.2 := by
  unfold defaultStep
  rw [h]

theorem defaultStep_of_null (d : Dict JValue) (kv : String × JValue)
    (h : alGet d kv.1 = some .null) : defaultStep d kv = alSet d kv.1 kv.2 := by
  unfold defaultStep
  rw [h]

theorem defaultStep_of_nonnull (d : Dict JValue) (kv : String × JValue)
    (w : JValue) (hw : alGet d kv.1 = some w) (hnn : w ≠ .null) :
    defaultStep d kv = d := by
  unfold defaultStep
  rw [hw]
  cases w with
  | null => exact absurd rfl hnn
  | jbool b => rfl
  | num q => rfl
  | str s => rfl
  | arr => rfl
  | obj => rfl

theorem defaultStep_get_self (d : Dict JValue) (k : String) (v : JValue) :
    alGet (defaultStep d (k, v)) k = some v ∨
    (∃ w, alGet d k = some w ∧ w ≠ .null ∧
      alGet (defaultStep d (k, v)) k = some w) := by
  cases hg : alGet d k with
  | none =>
    rw [defaultStep_of_none d (k, v) hg]
    exact Or.inl (alGet_alSet_self d k v)
  | some w =>
    cases hw : decide (w = JValue.null) with
    | true =>
      have : w = JValue.null := of_decide_eq_true hw
      subst this
      rw [defaultStep_of_null d (k, v) hg]
      exact Or.inl (alGet_alSet_self d k v)
    | false =>
      have hnn : w ≠ JValue.null := of_decide_eq_false hw
      rw [defaultStep_of_nonnull d (k, v) w hg hnn]
      exact Or.inr ⟨w, rfl, hnn, hg⟩

/-- `applyDefaults` as the explicit six-step composition. -/
theorem applyDefaults_eq (d : Dict JValue) :
    applyDefaults d =
      defaultStep (defaultStep (defaultStep (defaultStep (defaultStep
        (defaultStep d ("transaction_type", .str "Unknown"))
        ("name", .str "")) ("email", .str "")) ("amount", .null))
        ("currency", .str "")) ("date", .str "") := rfl

theorem jstr_ne_null (s : String) : JValue.str s ≠ JValue.null :=
  fun hh => JValue.noConfusion hh

theorem jnum_ne_null (q : ℚ) : JValue.num q ≠ JValue.null :=
  fun hh => JValue.noConfusion hh

/-- The defaults loop establishes `DictShape` from the facts the earlier
validation steps guarantee. -/
theorem applyDefaults_shape (d4 : Dict JValue) (s : String)
    (htt4 : alGet d4 "transaction_type" = some (.str s))
    (hsv : s ∈ validTransactionTypes ∨ s = "Unknown")
    (hamt4 : alGet d4 "amount" = none ∨ alGet d4 "amount" = some .null ∨
      ∃ q, alGet d4 "amount" = some (.num q))
    (hcur4 : alGet d4 "currency" = none ∨
      ∃ cs, alGet d4 "currency" = some (.str cs) ∧ (cs ∈ validCurrencies ∨ cs = ""))
    (hdt4 : alGet d4 "date" = none ∨ ∃ ds, alGet d4 "date" = some (.str ds)) :
    DictShape (applyDefaults d4) := by
  refine ⟨?_, ?_, ?_, ?_, ?_, ?_⟩
  · -- transaction_type
    refine ⟨s, ?_, hsv⟩
    rw [applyDefaults_eq, defaultStep_get_ne _ _ _ (by decide),
      defaultStep_get_ne _ _ _ (by decide), defaultStep_get_ne _ _ _ (by decide),
      defaultStep_get_ne _ _ _ (by decide), defaultStep_get_ne _ _ _ (by decide),
      defaultStep_of_nonnull d4 _ _ htt4 (jstr_ne_null s)]
    exact htt4
  · -- amount
    rw [applyDefaults_eq, defaultStep_get_ne _ _ _ (by decide),
      defaultStep_get_ne _ _ _ (by decide)]
    have hmid : alGet (defaultStep (defaultStep (defaultStep d4
        ("transaction_type", JValue.str "Unknown")) ("name", JValue.str ""))
        ("email", JValue.str "")) "amount" = alGet d4 "amount" := by
      rw [defaultStep_get_ne _ _ _ (by decide), defaultStep_get_ne _ _ _ (by decide),
        defaultStep_get_ne _ _ _ (by decide)]
    rcases hamt4 with h0 | h0 | ⟨q, h0⟩
    · rw [defaultStep_of_none _ _ (by rw [hmid]; exact h0)]
      exact Or.inl (alGet_alSet_self _ _ _)
    · rw [defaultStep_of_null _ _ (by rw [hmid]; exact h0)]
      exact Or.inl (alGet_alSet_self _ _ _)
    · rw [defaultStep_of_nonnull _ _ (.num q) (by rw [hmid]; exact h0)
        (jnum_ne_null q), hmid]
      exact Or.inr ⟨q, h0⟩
  · -- currency
    rw [applyDefaults_eq, defaultStep_get_ne _ _ _ (by decide)]
    have hmid : alGet (defaultStep (defaultStep (defaultStep (defaultStep d4
        ("transaction_type", JValue.str "Unknown")) ("name", JValue.str ""))
        ("email", JValue.str "")) ("amount", JValue.null)) "currency" =
        alGet d4 "currency" := by
      rw [defaultStep_get_ne _ _ _ (by decide), defaultStep_get_ne _ _ _ (by decide),
        defaultStep_get_ne _ _ _ (by decide), defaultStep_get_ne _ _ _ (by decide)]
    rcases hcur4 with h0 | ⟨cs, h0, hcsv⟩
    · refine ⟨"", ?_, Or.inr rfl⟩
      rw [defaultStep_of_none _ _ (by rw [hmid]; exact h0)]
      exact alGet_alSet_self _ _ _
    · refine ⟨cs, ?_, hcsv⟩
      rw [defaultStep_of_nonnull _ _ (.str cs) (by rw [hmid]; exact h0)
        (jstr_ne_null cs), hmid]
      exact h0
  · -- date
    rw [applyDefaults_eq]
    have hmid : alGet (defaultStep (defaultStep (defaultStep (defaultStep
        (defaultStep d4 ("transaction_type", JValue.str "Unknown"))
        ("name", JValue.str "")) ("email", JValue.str "")) ("amount", JValue.null))
        ("currency", JValue.str "")) "date" = alGet d4 "date" := by
      rw [defaultStep_get_ne _ _ _ (by decide), defaultStep_get_ne _ _ _ (by decide),
        defaultStep_get_ne _ _ _ (by decide), defaultStep_get_ne _ _ _ (by decide),
        defaultStep_get_ne _ _ _ (by decide)]
    rcases hdt4 with h0 | ⟨ds, h0⟩
    · refine ⟨"", ?_⟩
      rw [defaultStep_of_none _ _ (by rw [hmid]; exact h0)]
      exact alGet_alSet_self _ _ _
    · refine ⟨ds, ?_⟩
      rw [defaultStep_of_nonnull _ _ (.str ds) (by rw [hmid]; exact h0)
        (jstr_ne_null ds), hmid]
      exact h0
  · -- name
    rw [applyDefaults_eq, defaultStep_get_ne _ _ _ (by decide),
      defaultStep_get_ne _ _ _ (by decide), defaultStep_get_ne _ _ _ (by decide),
      defaultStep_get_ne _ _ _ (by decide)]
    rcases defaultStep_get_self (defaultStep d4
        ("transaction_type", JValue.str "Unknown")) "name" (.str "") with
      hcase | ⟨w, _, hwnn, hwget⟩
    · exact ⟨.str "", hcase, jstr_ne_null ""⟩
    · exact ⟨w, hwget, hwnn⟩
  · -- email
    rw [applyDefaults_eq, defaultStep_get_ne _ _ _ (by decide),
      defaultStep_get_ne _ _ _ (by decide), defaultStep_get_ne _ _ _ (by decide)]
    rcases defaultStep_get_self (defaultStep (defaultStep d4
        ("transaction_type", JValue.str "Unknown")) ("name", JValue.str ""))
        "email" (.str "") with hcase | ⟨w, _, hwnn, hwget⟩
    · exact ⟨.str "", hcase, jstr_ne_null ""⟩
    · exact ⟨w, hwget, hwnn⟩

theorem validate_shape {d d' : Dict JValue} (h : validate d = .ok d') :
    DictShape d' := by
  unfold validate at h
  cases h1 : vType d with
  | error e => rw [h1] at h; exact Except.noConfusion h
  | ok d1 =>
    rw [h1] at h
    dsimp only at h
    cases h3 : vCurrency (vAmount d1) with
    | error e => rw [h3] at h; exact Except.noConfusion h
    | ok d3 =>
      rw [h3] at h
      dsimp only at h
      cases h4 : vDate d3 with
      | error e => rw [h4] at h; exact Except.noConfusion h
      | ok d4 =>
        rw [h4] at h
        dsimp only at h
        cases h
        obtain ⟨p1, s, hs, hsv⟩ := vType_ok h1
        obtain ⟨p2, hamt2⟩ := vAmount_spec d1
        obtain ⟨p3, hcur3⟩ := vCurrency_ok h3
        obtain ⟨p4, hdt4⟩ := vDate_ok h4
        refine applyDefaults_shape d4 s ?_ hsv ?_ ?_ ?_
        · rw [p4 _ (by decide), p3 _ (by decide), p2 _ (by decide)]
          exact hs
        · rw [p4 _ (by decide), p3 _ (by decide)]
          exact hamt2
        · rw [p4 _ (by decide)]
          exact hcur3
        · exact hdt4

theorem attemptResult_ok {o : LLMOutcome} {d : Dict JValue}
    (h : attemptResult o = .ok d) : DictShape d := by
  cases o with
  | raised m => exact Except.noConfusion h
  | badJson m => exact Except.noConfusion h
  | okJson d0 => exact validate_shape h

/-- Every dict `parseTxnGo` can return satisfies the shape invariant. -/
theorem parseTxnGo_shape (oracle : Nat → LLMOutcome) (mr : Nat) :
    ∀ fuel rc, DictShape (parseTxnGo oracle mr fuel rc).1 := by
  intro fuel
  induction fuel with
  | zero => intro rc; exact dictShape_fullDefault
  | succ fuel ih =>
    intro rc
    cases hA : attemptResult (oracle rc) with
    | ok d =>
      simp only [parseTxnGo, hA]
      exact attemptResult_ok hA
    | error msg =>
      simp only [parseTxnGo, hA]
      by_cases hc : isRateLimitMsg msg = true ∧ rc < mr
      · rw [if_pos hc]
        exact ih (rc + 1)
      · rw [if_neg hc]
        exact dictShape_fullDefault

/-- Every record the extractor returns satisfies the shape invariant; in
particular the extractor never raises (it is a total function). -/
theorem parse_shape (oracle : Nat → LLMOutcome) (text : String) (rc mr : Nat) :
    DictShape (parse_transaction_with_llm oracle text rc mr).1 :=
  parseTxnGo_shape oracle mr _ rc

theorem parseTxnGo_step_ok (oracle : Nat → LLMOutcome) (mr fuel rc : Nat)
    (d : Dict JValue) (h : attemptResult (oracle rc) = .ok d) :
    parseTxnGo oracle mr (fuel + 1) rc = (d, []) := by
  simp only [parseTxnGo, h]

theorem parseTxnGo_step_retry (oracle : Nat → LLMOutcome) (mr fuel rc : Nat)
    (msg : String) (h : attemptResult (oracle rc) = .error msg)
    (hm : isRateLimitMsg msg = true) (hlt : rc < mr) :
    parseTxnGo oracle mr (fuel + 1) rc =
      ((parseTxnGo oracle mr fuel (rc + 1)).1,
       2 ^ rc * 20 :: (parseTxnGo oracle mr fuel (rc + 1)).2) := by
  simp only [parseTxnGo, h]
  rw [if_pos ⟨hm, hlt⟩]

theorem parseTxnGo_step_stop (oracle : Nat → LLMOutcome) (mr fuel rc : Nat)
    (msg : String) (h : attemptResult (oracle rc) = .error msg)
    (hm : ¬(isRateLimitMsg msg = true ∧ rc < mr)) :
    parseTxnGo oracle mr (fuel + 1) rc = (fullDefaultDict, []) := by
  simp only [parseTxnGo, h]
  rw [if_neg hm]

/-- A first-attempt error without the rate-limit marker yields the
fully-defaulted record with no retry and no wait. -/
theorem parse_error_first (oracle : Nat → LLMOutcome) (text msg : String)
    (h : attemptResult (oracle 0) = .error msg)
    (hm : isRateLimitMsg msg = false) :
    parse_transaction_with_llm oracle text 0 3 = (fullDefaultDict, []) := by
  show parseTxnGo oracle 3 (3 + 1) 0 = (fullDefaultDict, [])
  exact parseTxnGo_step_stop oracle 3 3 0 msg h (by rw [hm]; simp)

/-- Rate-limit-marked errors on all four attempts: three retries with waits
20, 40, 80 seconds, then the fully-defaulted record. -/
theorem parse_rate_limited_all (oracle : Nat → LLMOutcome) (text : String)
    (h : ∀ k, k ≤ 3 → ∃ msg, attemptResult (oracle k) = .error msg ∧
      isRateLimitMsg msg = true) :
    parse_transaction_with_llm oracle text 0 3 = (fullDefaultDict, [20, 40, 80]) := by
  obtain ⟨m0, h0, hm0⟩ := h 0 (by omega)
  obtain ⟨m1, h1, hm1⟩ := h 1 (by omega)
  obtain ⟨m2, h2, hm2⟩ := h 2 (by omega)
  obtain ⟨m3, h3, hm3⟩ := h 3 (by omega)
  show parseTxnGo oracle 3 (3 + 1) 0 = (fullDefaultDict, [20, 40, 80])
  rw [parseTxnGo_step_retry oracle 3 3 0 m0 h0 hm0 (by omega),
    parseTxnGo_step_retry oracle 3 2 1 m1 h1 hm1 (by omega),
    parseTxnGo_step_retry oracle 3 1 2 m2 h2 hm2 (by omega),
    parseTxnGo_step_stop oracle 3 0 3 m3 h3 (by omega)]
  rfl

/-! ## Per-line lemmas for the batch runner -/

theorem mkRow_ok (t : Dict JValue) (u : Option ℚ) (sh : DictShape t)
    (am : JValue) (ham : alGet t "amount" = some am) :
    ∃ row, mkRow t u = .ok row ∧ row.amount_usd = u ∧
      row.original_amount = am := by
  obtain ⟨s, hs, _⟩ := sh.tt
  obtain ⟨cs, hcs, _⟩ := sh.cur
  obtain ⟨ds, hds⟩ := sh.dt
  obtain ⟨nv, hnv, _⟩ := sh.nm
  obtain ⟨ev, hev, _⟩ := sh.em
  refine ⟨⟨.str s, nv, ev, u, am, .str cs, .str ds⟩, ?_, rfl, rfl⟩
  unfold mkRow
  rw [hs, hnv, hev, ham, hcs, hds]

/-- `convert_to_usd` never raises on the values `validate` guarantees
(a numeric amount and a string currency). -/
theorem convertJ_num (fetch : RateFetch) (cache : Cache) (q : ℚ) (s : String) :
    ∃ res cache', convertJ fetch cache (.num q) (.str s) = (.ok res, cache') := by
  unfold convertJ
  rw [if_neg (fun hh => JValue.noConfusion hh)]
  by_cases hs0 : pyFalsyJ (.str s) = true
  · rw [if_pos hs0]
    exact ⟨some (round2 q), cache, rfl⟩
  · rw [if_neg hs0]
    dsimp only
    by_cases hblank : pyStrip s = ""
    · rw [if_pos hblank]
      exact ⟨some (round2 q), cache, rfl⟩
    · rw [if_neg hblank]
      by_cases husd : pyStrip (pyUpper s) = "USD"
      · rw [if_pos husd]
        exact ⟨some (round2 q), cache, rfl⟩
      · rw [if_neg husd]
        rcases hge : get_exchange_rate fetch cache (pyStrip (pyUpper s)) 0 3 with
          ⟨ropt, cache'⟩
        cases ropt with
        | some r => exact ⟨some (round2 (q * r)), cache', rfl⟩
        | none => exact ⟨none, cache', rfl⟩

/-- A row whose `original_amount` is the number `q` and whose USD amount is
populated satisfies the invariant; packaged for the many fallback branches. -/
theorem mkRow_num_invariant (t : Dict JValue) (sh : DictShape t) (q : ℚ)
    (hq : alGet t "amount" = some (.num q)) (x : ℚ) (cx : Cache) :
    ∃ row cache', (mkRow t (some x), cx) = (Except.ok row, cache') ∧
      (row.amount_usd = none ↔ row.original_amount = .null) := by
  obtain ⟨row, hrow, hu, ham⟩ := mkRow_ok t (some x) sh (.num q) hq
  refine ⟨row, cx, by rw [hrow], ?_⟩
  constructor
  · intro hh
    rw [hu] at hh
    exact Option.noConfusion hh
  · intro hh
    rw [ham] at hh
    exact JValue.noConfusion hh

/-- The per-line body never raises: every line yields a row, and the row
satisfies the `amount_usd`/`original_amount` invariant. -/
theorem processLine_ok (o : LineOracle) (line : String) (cache : Cache) :
    ∃ row cache', processLine o line cache = (.ok row, cache') ∧
      (row.amount_usd = none ↔ row.original_amount = .null) := by
  unfold processLine
  dsimp only
  have sh : DictShape
      (parse_transaction_with_llm o.llm (pyStrip (removeLineNum line)) 0 3).1 :=
    parse_shape o.llm _ 0 3
  set t := (parse_transaction_with_llm o.llm (pyStrip (removeLineNum line)) 0 3).1
    with ht
  rcases sh.amt with hnull | ⟨q, hq⟩
  · rw [hnull]
    dsimp only
    rw [if_pos rfl]
    obtain ⟨row, hrow, hu, ham⟩ := mkRow_ok t none sh .null hnull
    refine ⟨row, cache, by rw [hrow], ?_⟩
    constructor
    · intro _
      rw [ham]
    · intro _
      rw [hu]
  · rw [hq]
    dsimp only
    rw [if_neg (fun hh => JValue.noConfusion hh)]
    obtain ⟨cs, hcs, _⟩ := sh.cur
    rw [hcs]
    dsimp only
    obtain ⟨res, cache1, hcj⟩ := convertJ_num o.convFetch cache q cs
    rw [hcj]
    cases res with
    | some u => exact mkRow_num_invariant t sh q hq u cache1
    | none =>
      have hfb : fallbackCurrency t =
          .ok (if pyFalsyJ (.str cs) then "" else pyStrip (pyUpper cs)) := by
        unfold fallbackCurrency
        rw [hcs]
        dsimp only
        by_cases h0 : pyFalsyJ (.str cs) = true
        · rw [if_pos h0, if_pos h0]
        · rw [if_neg h0, if_neg h0]
      rw [hfb]
      dsimp only
      by_cases hcond : (if pyFalsyJ (.str cs) then "" else pyStrip (pyUpper cs)) = ""
        ∨ (if pyFalsyJ (.str cs) then "" else pyStrip (pyUpper cs)) = "USD"
      · rw [if_pos hcond]
        exact mkRow_num_invariant t sh q hq (round2 q) cache1
      · rw [if_neg hcond]
        rcases hge : get_exchange_rate o.retryFetch cache1
            (if pyFalsyJ (.str cs) then "" else pyStrip (pyUpper cs)) 0 3 with
          ⟨ropt, cache2⟩
        cases ropt with
        | some r => exact mkRow_num_invariant t sh q hq (round2 (q * r)) cache2
        | none => exact mkRow_num_invariant t sh q hq (round2 q) cache2

/-- A per-line extraction failure without the rate-limit marker still yields
a row: the fully-defaulted one. -/
theorem processLine_default (o : LineOracle) (line : String) (cache : Cache)
    (msg : String) (h : attemptResult (o.llm 0) = .error msg)
    (hm : isRateLimitMsg msg = false) :
    processLine o line cache = (.ok defaultCsvRow, cache) := by
  unfold processLine
  dsimp only
  rw [parse_error_first o.llm _ msg h hm]
  rfl

theorem processLoop_nil (oracles : Nat → LineOracle) (i : Nat) (cache : Cache) :
    processLoop oracles [] i cache = ([], 0, cache) := rfl

theorem processLoop_cons_ok (oracles : Nat → LineOracle) (line : String)
    (rest : List String) (i : Nat) (cache : Cache) (row : CsvRow)
    (cache' : Cache)
    (h : processLine (oracles i) line cache = (.ok row, cache')) :
    processLoop oracles (line :: rest) i cache =
      (row :: (processLoop oracles rest (i + 1) cache').1,
       (processLoop oracles rest (i + 1) cache').2.1 + 1,
       (processLoop oracles rest (i + 1) cache').2.2) := by
  simp only [processLoop]
  rw [h]

/-- Every row the loop emits satisfies the invariant. -/
theorem processLoop_inv (oracles : Nat → LineOracle) :
    ∀ (lines : List String) (i : Nat) (cache : Cache) (row : CsvRow),
      row ∈ (processLoop oracles lines i cache).1 →
      (row.amount_usd = none ↔ row.original_amount = .null) := by
  intro lines
  induction lines with
  | nil =>
    intro i cache row h
    exact absurd h (List.not_mem_nil row)
  | cons line rest ih =>
    intro i cache row h
    obtain ⟨row0, cache', hpl, hinv⟩ := processLine_ok (oracles i) line cache
    rw [processLoop_cons_ok oracles line rest i cache row0 cache' hpl] at h
    rcases List.mem_cons.mp h with hh | hh
    · rw [hh]
      exact hinv
    · exact ih (i + 1) cache' row hh

/-! ## Concrete service behaviours used in counterexamples and witnesses -/

/-- A well-formed service response (all six keys, valid values, no amount). -/
def okRespFull : Dict JValue :=
  [("transaction_type", .str "Payment"), ("name", .str "John Smith"),
   ("email", .str "john@example.com"), ("amount", .null),
   ("currency", .str "USD"), ("date", .str "2024-11-02")]

/-- Line 2 (index 1) raises a non-rate-limit error; the others succeed. -/
def oraclesLine2Fails : Nat → LineOracle := fun i =>
  if i = 1 then ⟨fun _ => .raised "boom", fun _ => none, fun _ => none⟩
  else ⟨fun _ => .okJson okRespFull, fun _ => none, fun _ => none⟩

/-- Extraction raises a non-rate-limit error on every line. -/
def oraclesRaise : Nat → LineOracle :=
  fun _ => ⟨fun _ => .raised "boom", fun _ => none, fun _ => none⟩

/-- A response with a numeric `name` and a seventh key `note`. -/
def extraKeyResp : Dict JValue :=
  [("transaction_type", .str "Payment"), ("name", .num 7),
   ("email", .str ""), ("amount", .null),
   ("currency", .str "USD"), ("date", .str "2024-11-02"), ("note", .str "hi")]

/-- A response in which only `date` is `null`; all other fields are valid. -/
def dateNullResp : Dict JValue :=
  [("transaction_type", .str "Payment"), ("name", .str "Jane Doe"),
   ("email", .str "jane@example.com"), ("amount", .num 5),
   ("currency", .str "USD"), ("date", .null)]

/-! ## The claims -/

/-- Claim C1, counterexample.  With 3 input lines where line 2's extraction
raises a non-rate-limit error (`oraclesLine2Fails`), the run writes 3 data
rows and returns a processed count of 3 — not the 2 rows / count 2 the claim
states: the extractor swallows the error into a fully-defaulted record, so
the failing line still contributes a row and a count increment. -/
theorem C1_counterexample :
    (process_transactions oraclesLine2Fails ["a", "b", "c"]).2.1 = 3 ∧
    (process_transactions oraclesLine2Fails ["a", "b", "c"]).1.length = 3 ∧
    isRateLimitMsg "boom" = false :=
  ⟨rfl, rfl, rfl⟩

/-- Claim C1, amended: given 3 non-blank input lines where line 2's
extraction raises a non-rate-limit error, the output contains exactly 3 data
rows and the processed count is 3; the failing line contributes the
fully-defaulted row (not no row at all). -/
theorem C1_amended (oracles : Nat → LineOracle) (a b c msg : String)
    (ha : pyStrip a ≠ "") (hb : pyStrip b ≠ "") (hc : pyStrip c ≠ "")
    (hraise : (oracles 1).llm 0 = .raised msg)
    (hm : isRateLimitMsg msg = false) :
    (process_transactions oracles [a, b, c]).1.length = 3 ∧
    (process_transactions oracles [a, b, c]).2.1 = 3 ∧
    (process_transactions oracles [a, b, c]).1.get? 1 = some defaultCsvRow := by
  have hlines : (([a, b, c].map pyStrip).filter (fun l => l ≠ "")) =
      [pyStrip a, pyStrip b, pyStrip c] := by
    simp [List.filter, ha, hb, hc]
  obtain ⟨r0, c1, h0, _⟩ := processLine_ok (oracles 0) (pyStrip a) []
  have h1 : processLine (oracles (0 + 1)) (pyStrip b) c1 = (.ok defaultCsvRow, c1) :=
    processLine_default (oracles 1) (pyStrip b) c1 msg (by rw [hraise]; rfl) hm
  obtain ⟨r2, c3, h2, _⟩ := processLine_ok (oracles (0 + 1 + 1)) (pyStrip c) c1
  have hrun : process_transactions oracles [a, b, c] =
      ([r0, defaultCsvRow, r2], 3, c3) := by
    unfold process_transactions
    rw [hlines,
      processLoop_cons_ok oracles _ _ 0 [] r0 c1 h0,
      processLoop_cons_ok oracles _ _ (0 + 1) c1 defaultCsvRow c1 h1,
      processLoop_cons_ok oracles _ _ (0 + 1 + 1) c1 r2 c3 h2,
      processLoop_nil]
  rw [hrun]
  exact ⟨rfl, rfl, rfl⟩

/-- Witness for C1_amended at a concrete input. -/
theorem C1_amended_witness :
    (process_transactions oraclesLine2Fails ["a", "b", "c"]).1.length = 3 ∧
    (process_transactions oraclesLine2Fails ["a", "b", "c"]).2.1 = 3 ∧
    (process_transactions oraclesLine2Fails ["a", "b", "c"]).1.get? 1 =
      some defaultCsvRow :=
  C1_amended oraclesLine2Fails "a" "b" "c" "boom"
    (by decide) (by decide) (by decide) rfl rfl

/-- Claim C2, counterexample.  The claim says the record has exactly the six
fields with type-correct values; but a response with a seventh key `note`
and a numeric `name` yields a record that still has the `note` key and
keeps `name = 7` (a number, not a string). -/
theorem C2_counterexample :
    alGet (parse_transaction_with_llm (fun _ => .okJson extraKeyResp) "t" 0 3).1
      "note" = some (.str "hi") ∧
    alGet (parse_transaction_with_llm (fun _ => .okJson extraKeyResp) "t" 0 3).1
      "name" = some (.num 7) :=
  ⟨rfl, rfl⟩

/-- Claim C2, amended: for every input text and every service behaviour the
extractor returns (it is total — it never raises) a record that contains at
least the six fields; `transaction_type` is one of the valid types or
`Unknown`, `amount` is `None` or a number, `currency` is a valid code or
empty, `date` is a string, and `name`/`email` are never `None` (but pass
through unvalidated when the service returns a non-null non-string, and
extra keys are preserved). -/
theorem C2_amended (oracle : Nat → LLMOutcome) (text : String) (rc mr : Nat) :
    DictShape (parse_transaction_with_llm oracle text rc mr).1 :=
  parse_shape oracle text rc mr

/-- Claim C3: every row the Batch Runner produces has `amount_usd = None`
exactly when `original_amount` is `None`; whenever `original_amount` is a
number, `amount_usd` is populated. -/
theorem C3_invariant (oracles : Nat → LineOracle) (inputLines : List String) :
    ∀ row ∈ (process_transactions oracles inputLines).1,
      (row.amount_usd = none ↔ row.original_amount = .null) ∧
      (∀ q, row.original_amount = .num q → ∃ u, row.amount_usd = some u) := by
  intro row hrow
  have hiff : row.amount_usd = none ↔ row.original_amount = .null :=
    processLoop_inv oracles ((inputLines.map pyStrip).filter (fun l => l ≠ ""))
      0 [] row hrow
  refine ⟨hiff, ?_⟩
  intro q hq
  cases hu : row.amount_usd with
  | some u => exact ⟨u, rfl⟩
  | none =>
    have hnull := hiff.mp hu
    rw [hq] at hnull
    exact absurd hnull (fun hh => JValue.noConfusion hh)

/-- Witness for C3_invariant on a concrete run. -/
theorem C3_invariant_witness :
    (defaultCsvRow.amount_usd = none ↔ defaultCsvRow.original_amount = .null) ∧
    (∀ q, defaultCsvRow.original_amount = .num q →
      ∃ u, defaultCsvRow.amount_usd = some u) :=
  C3_invariant oraclesRaise ["x"] defaultCsvRow (by decide)

/-- Claim C4 (code bug): the claim — and the code's own defaults table,
which maps a `None` date to `""` — say a null `date` alone is replaced by
its default with the other fields preserved.  But the date-validation step
calls `strptime` on the value while catching only `ValueError`; a null date
raises `TypeError`, which escapes to the outer handler, so the whole record
collapses to the fully-defaulted one and the valid fields are lost. -/
theorem C4_date_null_collapses :
    validate dateNullResp = .error "strptime() argument 1 must be str" ∧
    parse_transaction_with_llm (fun _ => .okJson dateNullResp) "t" 0 3 =
      (fullDefaultDict, []) :=
  ⟨rfl, rfl⟩

/-- Claim C5: an error whose message lacks the rate-limit marker (429 /
rate_limit) — including a JSON-decode failure — yields the fully-defaulted
record immediately with no retry and no wait; errors carrying the marker on
every attempt are retried 3 times with waits 20, 40, 80 seconds and then
yield the fully-defaulted record. -/
theorem C5_retry_policy (oracle : Nat → LLMOutcome) (text : String) :
    (∀ msg, attemptResult (oracle 0) = .error msg → isRateLimitMsg msg = false →
      parse_transaction_with_llm oracle text 0 3 = (fullDefaultDict, [])) ∧
    ((∀ k, k ≤ 3 → ∃ msg, attemptResult (oracle k) = .error msg ∧
        isRateLimitMsg msg = true) →
      parse_transaction_with_llm oracle text 0 3 = (fullDefaultDict, [20, 40, 80])) :=
  ⟨fun msg h hm => parse_error_first oracle text msg h hm,
   fun h => parse_rate_limited_all oracle text h⟩

/-- Witness for C5_retry_policy at two concrete oracles. -/
theorem C5_retry_policy_witness :
    parse_transaction_with_llm (fun _ => .raised "boom") "t" 0 3 =
      (fullDefaultDict, []) ∧
    parse_transaction_with_llm (fun _ => .raised "Error code: 429") "t" 0 3 =
      (fullDefaultDict, [20, 40, 80]) :=
  ⟨(C5_retry_policy (fun _ => .raised "boom") "t").1 "boom" rfl rfl,
   (C5_retry_policy (fun _ => .raised "Error code: 429") "t").2
     (fun _ _ => ⟨"Error code: 429", rfl, rfl⟩)⟩

/-- Claim C6: `toUSD(a, "USD") = round(a, 2)`; a blank currency behaves as
USD; `toUSD(None, c) = None` — and the cache is untouched in all three
cases. -/
theorem C6_conversion_basics (fetch : RateFetch) (cache : Cache) (a : ℚ)
    (c : String) :
    convert_to_usd fetch cache (some a) "USD" = (some (round2 a), cache) ∧
    (pyStrip c = "" →
      convert_to_usd fetch cache (some a) c = (some (round2 a), cache)) ∧
    convert_to_usd fetch cache none c = (none, cache) := by
  refine ⟨?_, ?_, rfl⟩
  · unfold convert_to_usd
    dsimp only
    rw [if_neg (by decide), if_pos (by decide)]
  · intro hc
    unfold convert_to_usd
    dsimp only
    rw [if_pos (Or.inr hc)]

/-- Witness for C6_conversion_basics at concrete inputs. -/
theorem C6_conversion_basics_witness :
    convert_to_usd (fun _ => none) [] (some 2) "USD" = (some (round2 2), []) ∧
    convert_to_usd (fun _ => none) [] (some 2) " " = (some (round2 2), []) ∧
    convert_to_usd (fun _ => none) [] none " " = (none, []) :=
  ⟨(C6_conversion_basics (fun _ => none) [] 2 " ").1,
   (C6_conversion_basics (fun _ => none) [] 2 " ").2.1 rfl,
   (C6_conversion_basics (fun _ => none) [] 2 " ").2.2⟩

/-- Claim C7, counterexample.  The claim says a line that is empty after
stripping the digits-pipe marker and whitespace is excluded before counting
and contributes nothing.  But the pre-filter only strips whitespace; the
marker is removed after counting, so the line consisting only of the marker
is counted, extracted upon, and yields an output row. -/
theorem C7_counterexample :
    pyStrip (removeLineNum (pyStrip "3|")) = "" ∧
    (process_transactions oraclesRaise ["3|"]).1.length = 1 ∧
    (process_transactions oraclesRaise ["3|"]).2.1 = 1 ∧
    totalTransactions ["3|"] = 1 :=
  ⟨rfl, rfl, rfl, rfl⟩

/-- Claim C7, amended: only a line that is blank after whitespace-stripping
alone is excluded before counting, contributing neither to the reported
total nor to the run's output; the digits-pipe marker is stripped after
counting, inside the loop. -/
theorem C7_amended (oracles : Nat → LineOracle) (l : String)
    (rest : List String) (h : pyStrip l = "") :
    process_transactions oracles (l :: rest) = process_transactions oracles rest ∧
    totalTransactions (l :: rest) = totalTransactions rest := by
  have hfilter : ((l :: rest).map pyStrip).filter (fun s => s ≠ "") =
      (rest.map pyStrip).filter (fun s => s ≠ "") := by
    rw [List.map_cons, h]
    simp
  constructor
  · unfold process_transactions
    rw [hfilter]
  · unfold totalTransactions
    rw [hfilter]

/-- Witness for C7_amended at a concrete blank line. -/
theorem C7_amended_witness :
    process_transactions oraclesRaise [" "] = process_transactions oraclesRaise [] ∧
    totalTransactions [" "] = totalTransactions [] :=
  C7_amended oraclesRaise " " [] rfl

/-- Cache population skips every entry for `c` whose source rate is zero
(the code also skips negative rates; zero and missing are the claim's
cases). -/
theorem alGet_populateRates (cache : Cache) (rates : Rates) (c : String)
    (hz : ∀ p ∈ rates, pyUpper p.1 = c → p.2 = 0) :
    alGet (populateRates cache rates) c = alGet cache c := by
  induction rates generalizing cache with
  | nil => rfl
  | cons p t ih =>
    show alGet (populateRates
      (if 0 < p.2 then alSet cache (pyUpper p.1) (1 / p.2) else cache) t) c =
      alGet cache c
    by_cases hp : 0 < p.2
    · rw [if_pos hp, ih _ (fun p' hp' => hz p' (List.mem_cons_of_mem p hp'))]
      apply alGet_alSet_ne
      intro hcc
      have h0 : p.2 = 0 := hz p (List.mem_cons_self p t) hcc.symm
      rw [h0] at hp
      exact lt_irrefl 0 hp
    · rw [if_neg hp]
      exact ih _ (fun p' hp' => hz p' (List.mem_cons_of_mem p hp'))

/-- Claim C8: after a successful bulk fetch, a (non-USD, normalised)
currency whose source rate is zero or missing is absent from the Rate Cache,
and a subsequent `get_exchange_rate` call for it — with the service still
returning the same rates — returns unavailable (`none`) rather than
raising. -/
theorem C8_zero_rate (rates : Rates) (c : String) (hUSD : c ≠ "USD")
    (hNorm : pyStrip (pyUpper c) = c)
    (hz : ∀ p ∈ rates, pyUpper p.1 = c → p.2 = 0) :
    alGet (populateRates [] rates) c = none ∧
    (get_exchange_rate (fun _ => some rates) (populateRates [] rates)
      c 0 3).1 = none := by
  have h1 : alGet (populateRates [] rates) c = none := by
    rw [alGet_populateRates [] rates c hz]
    rfl
  refine ⟨h1, ?_⟩
  show (getRateGo (fun _ => some rates) 3 (3 + 1) 0 (populateRates [] rates)
    c).1 = none
  simp only [getRateGo]
  rw [if_neg hUSD, hNorm, h1]
  dsimp only
  rw [alGet_populateRates (populateRates [] rates) rates c hz, h1]

/-- Witness for C8_zero_rate at a concrete rates table. -/
theorem C8_zero_rate_witness :
    alGet (populateRates [] [("xyz", 0)]) "XYZ" = none ∧
    (get_exchange_rate (fun _ => some [("xyz", 0)]) (populateRates [] [("xyz", 0)])
      "XYZ" 0 3).1 = none :=
  C8_zero_rate [("xyz", 0)] "XYZ" (by decide) (by decide) (by decide)

/-- Claim C9, counterexample.  The claim says `toUSD` returns `None` only
when the amount is not `None` (and the normalised currency is non-empty and
non-USD); but `toUSD(None, "EUR")` is `None` with a `None` amount — the
`None` pass-through and the "unavailable" signal are the same value. -/
theorem C9_counterexample :
    ¬(∀ (fetch : RateFetch) (cache : Cache) (a : Option ℚ) (c : String),
        (convert_to_usd fetch cache a c).1 = none →
        a ≠ none ∧ pyStrip (pyUpper c) ≠ "" ∧ pyStrip (pyUpper c) ≠ "USD") := by
  intro hclaim
  have h := hclaim (fun _ => none) [] none "EUR" rfl
  exact h.1 rfl

/-- Claim C9, amended: for a non-`None` amount, `toUSD` returns `None`
(unavailable) only when the currency is non-empty, non-blank, and its
normalisation is non-empty and differs from USD; consequently the Batch
Runner's fallback branch guarded by `currency = "" or currency = "USD"` is
never taken for a record carrying that currency — the branch is
unreachable. -/
theorem C9_amended (fetch : RateFetch) (cache : Cache) (a : ℚ) (c : String)
    (h : (convert_to_usd fetch cache (some a) c).1 = none) :
    c ≠ "" ∧ pyStrip c ≠ "" ∧ pyStrip (pyUpper c) ≠ "" ∧
    pyStrip (pyUpper c) ≠ "USD" ∧
    (∀ t cur, alGet t "currency" = some (.str c) → fallbackCurrency t = .ok cur →
      ¬(cur = "" ∨ cur = "USD")) := by
  unfold convert_to_usd at h
  dsimp only at h
  by_cases h1 : c = "" ∨ pyStrip c = ""
  · rw [if_pos h1] at h
    exact absurd h (by simp)
  · rw [if_neg h1] at h
    push_neg at h1
    by_cases h2 : pyStrip (pyUpper c) = "USD"
    · rw [if_pos h2] at h
      exact absurd h (by simp)
    · rw [if_neg h2] at h
      have hup : pyStrip (pyUpper c) ≠ "" := by
        rw [pyStrip_pyUpper]
        intro hh
        exact h1.2 ((pyUpper_eq_empty_iff (pyStrip c)).mp hh)
      refine ⟨h1.1, h1.2, hup, h2, ?_⟩
      intro t cur hget hfb
      unfold fallbackCurrency at hfb
      rw [hget] at hfb
      dsimp only at hfb
      have hfalsy : pyFalsyJ (.str c) = false := by
        show decide (c = "") = false
        exact decide_eq_false h1.1
      rw [if_neg (by rw [hfalsy]; exact Bool.false_ne_true)] at hfb
      have hcur : cur = pyStrip (pyUpper c) := by
        cases hfb
        rfl
      rw [hcur]
      rintro (hh | hh)
      · exact hup hh
      · exact h2 hh

/-- Witness for C9_amended at a concrete unavailable conversion. -/
theorem C9_amended_witness :
    "EUR" ≠ "" ∧ pyStrip "EUR" ≠ "" ∧ pyStrip (pyUpper "EUR") ≠ "" ∧
    pyStrip (pyUpper "EUR") ≠ "USD" ∧
    (∀ t cur, alGet t "currency" = some (.str "EUR") →
      fallbackCurrency t = .ok cur → ¬(cur = "" ∨ cur = "USD")) :=
  C9_amended (fun _ => none) [] 1 "EUR" rfl

/-- Claim C10: currency codes are normalised by uppercasing and trimming —
for a non-blank currency, converting with `c` and with
`uppercase(trim(c))` give identical results (same value, same cache). -/
theorem C10_normalization (fetch : RateFetch) (cache : Cache) (a : ℚ)
    (c : String) (h : pyStrip c ≠ "") :
    convert_to_usd fetch cache (some a) c =
      convert_to_usd fetch cache (some a) (pyUpper (pyStrip c)) := by
  have hc0 : ¬(c = "" ∨ pyStrip c = "") := by
    rintro (hh | hh)
    · exact h (by rw [hh]; rfl)
    · exact h hh
  have hup_ne : pyUpper (pyStrip c) ≠ "" :=
    fun hh => h ((pyUpper_eq_empty_iff _).mp hh)
  have hstrip_up : pyStrip (pyUpper (pyStrip c)) = pyUpper (pyStrip c) := by
    rw [pyStrip_pyUpper, pyStrip_pyStrip]
  have hc0' : ¬(pyUpper (pyStrip c) = "" ∨ pyStrip (pyUpper (pyStrip c)) = "") := by
    rintro (hh | hh)
    · exact hup_ne hh
    · rw [hstrip_up] at hh
      exact hup_ne hh
  have hnorm_eq : pyStrip (pyUpper (pyUpper (pyStrip c))) = pyStrip (pyUpper c) := by
    rw [pyUpper_pyUpper (pyStrip c), pyStrip_pyUpper (pyStrip c), pyStrip_pyStrip,
      pyStrip_pyUpper c]
  unfold convert_to_usd
  dsimp only
  rw [if_neg hc0, if_neg hc0', hnorm_eq]

/-- Witness for C10_normalization at a concrete mixed-case input. -/
theorem C10_normalization_witness :
    convert_to_usd (fun _ => none) [] (some 1) " eur " =
      convert_to_usd (fun _ => none) [] (some 1) (pyUpper (pyStrip " eur ")) :=
  C10_normalization (fun _ => none) [] 1 " eur " (by decide)

end TxnParser
